import Mathlib

/-!
Shallow embedding of `src/src/wasm/src/creature/mod.rs` (evolution-simulator).

Rust `f64` fields are modelled as exact rationals (`ℚ`), `u32` counters as
`Nat`. A `Point2<f64>` / `Vector2<f64>` is a pair of rationals; vector
subtraction and negation are componentwise (the `Prod` group structure).

The one place the Rust code leaves the rationals is the final
`Unit::new_normalize(disp)` call of `get_direction`, which scales `disp` by
the reciprocal of its Euclidean norm. We therefore embed `get_direction` as
`get_direction_disp`, the displacement vector the source hands to
`Unit::new_normalize` (lines 156-172 of `mod.rs`); the returned unit vector
is that displacement scaled by a positive factor, so `get_direction_disp`
carries the entire direction content, and the normalization divides by zero
exactly when `get_direction_disp` is the zero vector. The zero test
`d.norm() != 0.` of the source is embedded as `normSq d ≠ 0`, which is
equivalent since a Euclidean norm vanishes exactly when the squared norm
does.
-/

abbrev Point2 : Type := ℚ × ℚ

abbrev Vector2 : Type := ℚ × ℚ

/-- Squared Euclidean norm of a 2D vector. The source compares
`d.norm() != 0.`; over the reals `‖d‖ ≠ 0 ↔ ‖d‖² ≠ 0`, and the squared norm
stays inside `ℚ`. -/
def normSq (v : Vector2) : ℚ := v.1 ^ 2 + v.2 ^ 2

/-- CreatureState from `mod.rs` lines 10-15. -/
inductive CreatureState : Type
  | DEAD
  | ASLEEP
  | ACTIVE
deriving DecidableEq, Repr

/-- ObjectiveIntensity from `mod.rs` lines 18-32, constructors in the source
declaration order. The Rust `derive(PartialOrd)` on a fieldless enum orders
variants by declaration index: earlier-declared is smaller. -/
inductive ObjectiveIntensity : Type
  | MinorCraving
  | MinorAversion
  | ModerateCraving
  | ModerateAversion
  | MajorCraving
  | MajorAversion
  | VitalCraving
  | VitalAversion
deriving DecidableEq, Repr, Fintype

/-- Declaration index of an `ObjectiveIntensity` variant; the Rust derived
order is `a < b ↔ rank a < rank b`. -/
def rank : ObjectiveIntensity → Nat
  | .MinorCraving => 0
  | .MinorAversion => 1
  | .ModerateCraving => 2
  | .ModerateAversion => 3
  | .MajorCraving => 4
  | .MajorAversion => 5
  | .VitalCraving => 6
  | .VitalAversion => 7

/-- The four `Aversion` variants matched at `mod.rs` lines 161-164. -/
def isAversion : ObjectiveIntensity → Bool
  | .MinorAversion => true
  | .ModerateAversion => true
  | .MajorAversion => true
  | .VitalAversion => true
  | _ => false

/-- Mutatable from the missing `mutatable.rs`: a tuple struct of the current
value and the mutation rate (the source constructs it as
`Mutatable(1.0, 0.1)` and reads the value as `.0`). -/
abbrev Mutatable : Type := ℚ × ℚ

/-- Modelled from the spec: the file `src/wasm/src/creature/mutatable.rs`
(declaring `Mutatable::get_mutated`) is not under `src/`; only its caller
`reproduce` is. Spec section 4.1: the child value is the parent value
perturbed by bounded random noise scaled by the rate, and the rate itself is
copied unchanged to the child. The entropy drawn from the rng is abstracted
into the rational `noise` argument supplied by the caller. -/
def get_mutated (m : Mutatable) (noise : ℚ) : Mutatable :=
  (m.1 + noise * m.2, m.2)

/-- Creature from `mod.rs` lines 34-56. -/
structure Creature : Type where
  speed : Mutatable
  sense_range : ℚ
  reach : ℚ
  life_span : Nat
  foods_eaten : Nat
  energy : ℚ
  age : Nat
  pos : Point2
  home_pos : Point2
  movement_history : List Point2
  state : CreatureState
  target : Option (Point2 × ObjectiveIntensity)
deriving DecidableEq, Repr

namespace Creature

/-- Creature::new, `mod.rs` lines 59-76. -/
def new (pos : Point2) : Creature where
  state := CreatureState.ACTIVE
  speed := (1, 1/10)
  sense_range := 50
  reach := 5
  life_span := 4
  foods_eaten := 0
  energy := 100
  age := 0
  pos := pos
  home_pos := pos
  movement_history := [pos]
  target := none

/-- Creature::will_reproduce, `mod.rs` lines 187-189. -/
def will_reproduce (c : Creature) : Bool :=
  decide (1 < c.foods_eaten)

/-- Creature::reproduce, `mod.rs` lines 80-93; the rng is abstracted into the
`noise` rational consumed by `get_mutated`. -/
def reproduce (c : Creature) (noise : ℚ) : List Creature :=
  if c.will_reproduce then
    [{ Creature.new c.home_pos with speed := get_mutated c.speed noise }]
  else
    []

/-- Creature::grow_older, `mod.rs` lines 96-118. -/
def grow_older (c : Creature) : Option Creature :=
  if c.life_span < c.age then
    none
  else
    some { Creature.new c.home_pos with
      speed := c.speed
      sense_range := c.sense_range
      reach := c.reach
      life_span := c.life_span
      age := c.age + 1 }

/-- Creature::get_speed, `mod.rs` lines 120-122 (`self.speed.0`). -/
def get_speed (c : Creature) : ℚ := c.speed.1

/-- Creature::is_alive, `mod.rs` lines 124-129. -/
def is_alive (c : Creature) : Bool :=
  match c.state with
  | CreatureState.DEAD => false
  | _ => true

/-- Creature::is_active, `mod.rs` lines 131-136. -/
def is_active (c : Creature) : Bool :=
  match c.state with
  | CreatureState.ACTIVE => true
  | _ => false

/-- Creature::get_motion_energy_cost, `mod.rs` lines 152-154. -/
def get_motion_energy_cost (c : Creature) : ℚ :=
  1/2 * c.get_speed ^ 2

/-- Creature::apply_energy_cost, `mod.rs` lines 219-225. -/
def apply_energy_cost (c : Creature) (cost : ℚ) : Creature :=
  let c1 : Creature := { c with energy := c.energy - cost }
  if c1.energy ≤ 0 then { c1 with state := CreatureState.DEAD } else c1

/-- Creature::move_to, `mod.rs` lines 140-150. -/
def move_to (c : Creature) (pos : Point2) : Creature :=
  let c1 : Creature := { c with
    pos := pos
    movement_history := c.movement_history ++ [pos] }
  c1.apply_energy_cost c1.get_motion_energy_cost

/-- Creature::get_last_position, `mod.rs` lines 204-209. -/
def get_last_position (c : Creature) : Option Point2 :=
  let len := c.movement_history.length
  if len ≤ 1 then none
  else c.movement_history[len - 2]?

/-- Creature::get_direction without the final `Unit::new_normalize` call,
`mod.rs` lines 156-172: the displacement vector the source normalizes. The
source's returned unit vector is this displacement scaled by the reciprocal
of its (nonnegative) norm, so it points the same way; the normalization
divides by zero exactly when this displacement is `(0, 0)`. -/
def get_direction_disp (c : Creature) : Vector2 :=
  ((c.target.map fun t =>
      let d := t.1 - c.pos
      if isAversion t.2 then -d else d).filter
    fun d => decide (normSq d ≠ 0)).getD
    ((c.get_last_position.map fun last => c.pos - last).getD (1, 0))

/-- Creature::add_objective, `mod.rs` lines 177-181. -/
def add_objective (c : Creature) (targetPos : Point2)
    (intensity : ObjectiveIntensity) : Creature :=
  if (c.target.map fun t => decide (rank t.2 < rank intensity)).getD true then
    { c with target := some (targetPos, intensity) }
  else
    c

/-- Creature::reset_objective, `mod.rs` lines 183-185. -/
def reset_objective (c : Creature) : Creature :=
  { c with target := none }

/-- Creature::eat_food, `mod.rs` lines 191-193. -/
def eat_food (c : Creature) : Creature :=
  { c with foods_eaten := c.foods_eaten + 1 }

/-- Creature::sleep, `mod.rs` lines 195-197: unconditional. -/
def sleep (c : Creature) : Creature :=
  { c with state := CreatureState.ASLEEP }

/-- Creature::get_position, `mod.rs` lines 200-202. -/
def get_position (c : Creature) : Point2 := c.pos

/-- Folding a burst of `add_objective` calls over a creature, in list order:
the stimuli offered within one tick. -/
def addAll (c : Creature) (l : List (Point2 × ObjectiveIntensity)) : Creature :=
  l.foldl (fun a q => a.add_objective q.1 q.2) c

/-- Folding a sequence of `move_to` calls over a creature, in list order: a
run of externally driven movements. -/
def moveAll (c : Creature) (l : List Point2) : Creature :=
  l.foldl move_to c

/-- Replace only the `state` field, leaving every other field unchanged; used
to compare runs of the same operation from states differing only in `state`. -/
def setState (c : Creature) (s : CreatureState) : Creature :=
  { c with state := s }

/-- The non-`state` observable fields of a creature: position, history,
energy, foods eaten and target. -/
def obs (c : Creature) :
    Point2 × List Point2 × ℚ × Nat × Option (Point2 × ObjectiveIntensity) :=
  (c.pos, c.movement_history, c.energy, c.foods_eaten, c.target)

end Creature

/-- Creature values reachable from construction through the core's
operations: `new`, the in-place mutators, and the creatures produced by
`grow_older` and `reproduce`. -/
inductive Reaches : Creature → Prop
  | new (p : Point2) : Reaches (Creature.new p)
  | move_to (c : Creature) (p : Point2) : Reaches c → Reaches (c.move_to p)
  | eat_food (c : Creature) : Reaches c → Reaches c.eat_food
  | add_objective (c : Creature) (p : Point2) (i : ObjectiveIntensity) :
      Reaches c → Reaches (c.add_objective p i)
  | reset_objective (c : Creature) : Reaches c → Reaches c.reset_objective
  | sleep (c : Creature) : Reaches c → Reaches c.sleep
  | apply_energy_cost (c : Creature) (x : ℚ) :
      Reaches c → Reaches (c.apply_energy_cost x)
  | grow_older (c d : Creature) : Reaches c → c.grow_older = some d → Reaches d
  | reproduce (c d : Creature) (noise : ℚ) :
      Reaches c → d ∈ c.reproduce noise → Reaches d

lemma normSq_eq_zero_iff (v : Vector2) : normSq v = 0 ↔ v = 0 := by
  constructor
  · intro h
    simp only [normSq] at h
    have h1 : v.1 ^ 2 = 0 := by nlinarith [sq_nonneg v.1, sq_nonneg v.2, h]
    have h2 : v.2 ^ 2 = 0 := by nlinarith [sq_nonneg v.1, sq_nonneg v.2, h]
    have e1 : v.1 = 0 := by
      have := (pow_eq_zero_iff (two_ne_zero)).mp h1
      exact this
    have e2 : v.2 = 0 := (pow_eq_zero_iff (two_ne_zero)).mp h2
    exact Prod.ext e1 e2
  · intro h
    subst h
    simp [normSq]

lemma rank_inj (a b : ObjectiveIntensity) (h : rank a = rank b) : a = b := by
  revert h
  revert a b
  decide

namespace Creature

lemma target_add_objective (c : Creature) (p : Point2) (i : ObjectiveIntensity) :
    (c.add_objective p i).target =
      match c.target with
      | none => some (p, i)
      | some t => if rank t.2 < rank i then some (p, i) else some t := by
  unfold add_objective
  cases h : c.target with
  | none => simp
  | some t =>
    simp only [h, Option.map_some, Option.getD_some]
    by_cases hlt : rank t.2 < rank i
    · simp [hlt]
    · simp [hlt]
      exact h

lemma addAll_nil (c : Creature) : c.addAll [] = c := rfl

lemma addAll_cons (c : Creature) (q : Point2 × ObjectiveIntensity)
    (l : List (Point2 × ObjectiveIntensity)) :
    c.addAll (q :: l) = (c.add_objective q.1 q.2).addAll l := rfl

lemma addAll_target_max (l : List (Point2 × ObjectiveIntensity)) :
    ∀ (c : Creature) (t : Point2 × ObjectiveIntensity), c.target = some t →
      ∃ u, (c.addAll l).target = some u ∧ (u = t ∨ u ∈ l) ∧
        rank t.2 ≤ rank u.2 ∧ ∀ q ∈ l, rank q.2 ≤ rank u.2 := by
  induction l with
  | nil =>
    intro c t ht
    exact ⟨t, by simpa [addAll_nil] using ht, Or.inl rfl, le_refl _, by simp⟩
  | cons q l ih =>
    intro c t ht
    rw [addAll_cons]
    have hstep := c.target_add_objective q.1 q.2
    rw [ht] at hstep
    by_cases hlt : rank t.2 < rank q.2
    · have hq : (c.add_objective q.1 q.2).target = some q := by
        simpa [hlt] using hstep
      obtain ⟨u, hu, hmem, hle, hall⟩ := ih _ q hq
      refine ⟨u, hu, ?_, le_of_lt (lt_of_lt_of_le hlt hle), ?_⟩
      · rcases hmem with h | h
        · exact Or.inr (by simp [h])
        · exact Or.inr (by simp [h])
      · intro r hr
        rcases List.mem_cons.mp hr with h | h
        · exact h ▸ hle
        · exact hall r h
    · have hq : (c.add_objective q.1 q.2).target = some t := by
        simpa [hlt] using hstep
      obtain ⟨u, hu, hmem, hle, hall⟩ := ih _ t hq
      refine ⟨u, hu, ?_, hle, ?_⟩
      · rcases hmem with h | h
        · exact Or.inl h
        · exact Or.inr (List.mem_cons_of_mem _ h)
      · intro r hr
        rcases List.mem_cons.mp hr with h | h
        · exact h ▸ le_trans (le_of_not_lt hlt) hle
        · exact hall r h

lemma addAll_target_max_of_none (c : Creature)
    (l : List (Point2 × ObjectiveIntensity)) (hc : c.target = none) (hl : l ≠ []) :
    ∃ u, (c.addAll l).target = some u ∧ u ∈ l ∧
      ∀ q ∈ l, rank q.2 ≤ rank u.2 := by
  cases l with
  | nil => exact absurd rfl hl
  | cons q l =>
    rw [addAll_cons]
    have hq : (c.add_objective q.1 q.2).target = some q := by
      have := c.target_add_objective q.1 q.2
      rw [hc] at this
      simpa using this
    obtain ⟨u, hu, hmem, hle, hall⟩ := addAll_target_max l _ q hq
    refine ⟨u, hu, ?_, ?_⟩
    · rcases hmem with h | h
      · exact h ▸ List.mem_cons_self q l
      · exact List.mem_cons_of_mem _ h
    · intro r hr
      rcases List.mem_cons.mp hr with h | h
      · exact h ▸ hle
      · exact hall r h

end Creature

/-- C1: `add_objective` replaces the current target iff no target is set or
the offered intensity is strictly greater in the total order given by the
variant rank (VitalAversion highest, MinorCraving lowest); on equal or lower
intensity the earlier target is retained; hence for any burst of
`add_objective` calls after a reset the retained target carries the maximal
intensity offered, independent of the order of the calls. -/
theorem C1_add_objective_priority :
    (rank ObjectiveIntensity.MinorCraving < rank ObjectiveIntensity.MinorAversion ∧
     rank ObjectiveIntensity.MinorAversion < rank ObjectiveIntensity.ModerateCraving ∧
     rank ObjectiveIntensity.ModerateCraving < rank ObjectiveIntensity.ModerateAversion ∧
     rank ObjectiveIntensity.ModerateAversion < rank ObjectiveIntensity.MajorCraving ∧
     rank ObjectiveIntensity.MajorCraving < rank ObjectiveIntensity.MajorAversion ∧
     rank ObjectiveIntensity.MajorAversion < rank ObjectiveIntensity.VitalCraving ∧
     rank ObjectiveIntensity.VitalCraving < rank ObjectiveIntensity.VitalAversion) ∧
    (∀ (c : Creature) (p : Point2) (i : ObjectiveIntensity), c.target = none →
      (c.add_objective p i).target = some (p, i)) ∧
    (∀ (c : Creature) (p : Point2) (i : ObjectiveIntensity)
        (q : Point2) (j : ObjectiveIntensity), c.target = some (q, j) →
      (rank j < rank i → (c.add_objective p i).target = some (p, i)) ∧
      (¬ rank j < rank i → (c.add_objective p i).target = some (q, j))) ∧
    (∀ (c : Creature) (l : List (Point2 × ObjectiveIntensity)),
        c.target = none → l ≠ [] →
      ∃ u, (c.addAll l).target = some u ∧ u ∈ l ∧
        ∀ q ∈ l, rank q.2 ≤ rank u.2) ∧
    (∀ (c c' : Creature) (l l' : List (Point2 × ObjectiveIntensity)),
        c.target = none → c'.target = none → l.Perm l' →
      ((c.addAll l).target.map fun t => t.2) =
        ((c'.addAll l').target.map fun t => t.2)) := by
  refine ⟨by decide, ?_, ?_, ?_, ?_⟩
  · intro c p i hc
    have := c.target_add_objective p i
    rw [hc] at this
    simpa using this
  · intro c p i q j hc
    have := c.target_add_objective p i
    rw [hc] at this
    constructor
    · intro hlt
      simpa [hlt] using this
    · intro hlt
      simpa [hlt] using this
  · intro c l hc hl
    exact c.addAll_target_max_of_none l hc hl
  · intro c c' l l' hc hc' hperm
    cases l with
    | nil =>
      have hl' : l' = [] := hperm.symm.eq_nil
      subst hl'
      simp [Creature.addAll_nil, hc, hc']
    | cons q l0 =>
      have hl : (q :: l0) ≠ [] := by simp
      have hl' : l' ≠ [] := by
        intro h
        subst h
        exact absurd hperm.eq_nil (by simp)
      obtain ⟨u, hu, humem, humax⟩ := c.addAll_target_max_of_none _ hc hl
      obtain ⟨u', hu', humem', humax'⟩ := c'.addAll_target_max_of_none l' hc' hl'
      have h1 : rank u.2 ≤ rank u'.2 := humax' u (hperm.mem_iff.mp humem)
      have h2 : rank u'.2 ≤ rank u.2 := humax u' (hperm.mem_iff.mpr humem')
      have : u.2 = u'.2 := rank_inj _ _ (Nat.le_antisymm h1 h2)
      rw [hu, hu']
      simp [this]

/-- Witness for C1 at the concrete scenario of spec section 8: a fresh
creature offered ModerateCraving at (10,0) and then MinorAversion at
(0,-10). -/
theorem C1_witness :
    ((Creature.new (0, 0)).add_objective (10, 0)
        ObjectiveIntensity.ModerateCraving).target =
      some ((10, 0), ObjectiveIntensity.ModerateCraving) ∧
    (((Creature.new (0, 0)).add_objective (10, 0)
        ObjectiveIntensity.ModerateCraving).add_objective (0, -10)
        ObjectiveIntensity.MinorAversion).target =
      some ((10, 0), ObjectiveIntensity.ModerateCraving) ∧
    (∃ u : Point2 × ObjectiveIntensity, ((Creature.new (0, 0)).addAll
        [((10, 0), ObjectiveIntensity.ModerateCraving),
         ((0, -10), ObjectiveIntensity.MinorAversion)]).target = some u ∧
      u ∈ ([((10, 0), ObjectiveIntensity.ModerateCraving),
            ((0, -10), ObjectiveIntensity.MinorAversion)] :
          List (Point2 × ObjectiveIntensity)) ∧
      ∀ q ∈ ([((10, 0), ObjectiveIntensity.ModerateCraving),
              ((0, -10), ObjectiveIntensity.MinorAversion)] :
          List (Point2 × ObjectiveIntensity)),
        rank q.2 ≤ rank u.2) := by
  refine ⟨?_, ?_, ?_⟩
  · exact C1_add_objective_priority.2.1 (Creature.new (0, 0)) (10, 0)
      ObjectiveIntensity.ModerateCraving rfl
  · exact (C1_add_objective_priority.2.2.1 _ (0, -10) ObjectiveIntensity.MinorAversion
      (10, 0) ObjectiveIntensity.ModerateCraving rfl).2 (by decide)
  · refine C1_add_objective_priority.2.2.2.1 _ _ ?_ ?_
    · rfl
    · simp


lemma normSq_neg (v : Vector2) : normSq (-v) = normSq v := by
  simp [normSq]

lemma normSq_sub_comm (a b : Point2) : normSq (a - b) = normSq (b - a) := by
  rw [← neg_sub b a, normSq_neg]

namespace Creature

lemma get_direction_disp_of_craving (c : Creature) (p : Point2)
    (i : ObjectiveIntensity) (h : c.target = some (p, i))
    (ha : isAversion i = false) (hne : p ≠ c.pos) :
    c.get_direction_disp = p - c.pos := by
  have hz : normSq (p - c.pos) ≠ 0 := by
    intro hz
    exact hne (sub_eq_zero.mp ((normSq_eq_zero_iff _).mp hz))
  unfold get_direction_disp
  rw [h]
  simp [Option.filter, ha, hz]

lemma get_direction_disp_of_aversion (c : Creature) (p : Point2)
    (i : ObjectiveIntensity) (h : c.target = some (p, i))
    (ha : isAversion i = true) (hne : p ≠ c.pos) :
    c.get_direction_disp = -(p - c.pos) := by
  have hz : normSq (c.pos - p) ≠ 0 := by
    rw [normSq_sub_comm]
    intro hz
    exact hne (sub_eq_zero.mp ((normSq_eq_zero_iff _).mp hz))
  unfold get_direction_disp
  rw [h]
  simp [Option.filter, ha, hz]

lemma get_direction_disp_of_none (c : Creature) (h : c.target = none) :
    c.get_direction_disp =
      (c.get_last_position.map fun last => c.pos - last).getD (1, 0) := by
  unfold get_direction_disp
  rw [h]
  rfl

lemma get_direction_disp_of_target_at_pos (c : Creature) (p : Point2)
    (i : ObjectiveIntensity) (h : c.target = some (p, i)) (hp : p = c.pos) :
    c.get_direction_disp =
      (c.get_last_position.map fun last => c.pos - last).getD (1, 0) := by
  unfold get_direction_disp
  rw [h]
  subst hp
  cases ha : isAversion i <;> simp [Option.filter, ha, normSq]

end Creature

example : (10 : ℚ) ≠ 0 := by decide
example : ((10 : ℚ), (0 : ℚ)) ≠ ((0 : ℚ), (0 : ℚ)) := by decide

/-- C2: the fallback chain of `get_direction`. With a craving target not at
`pos` the displacement handed to the final normalization is `target - pos`
(the returned unit vector points toward the target); with an aversion target
not at `pos` it is `-(target - pos)` (away from the target); a freshly
constructed creature (no target, one history entry) gets the positive x-axis
unit vector `(1, 0)`; with an aversion target exactly at `pos` and at least
two history entries the chain falls back to the most recent movement,
`pos` minus the second-to-last entry, which is nonzero (not a zero vector)
whenever that movement was an actual displacement. -/
theorem C2_get_direction_fallback_chain :
    (∀ (c : Creature) (p : Point2) (i : ObjectiveIntensity),
        c.target = some (p, i) → isAversion i = false → p ≠ c.pos →
      c.get_direction_disp = p - c.pos) ∧
    (∀ (c : Creature) (p : Point2) (i : ObjectiveIntensity),
        c.target = some (p, i) → isAversion i = true → p ≠ c.pos →
      c.get_direction_disp = -(p - c.pos)) ∧
    (∀ p : Point2, (Creature.new p).get_direction_disp = (1, 0)) ∧
    (∀ (c : Creature) (p last : Point2) (i : ObjectiveIntensity),
        c.target = some (p, i) → isAversion i = true → p = c.pos →
        c.get_last_position = some last →
      c.get_direction_disp = c.pos - last ∧
        (last ≠ c.pos → normSq c.get_direction_disp ≠ 0)) := by
  refine ⟨?_, ?_, ?_, ?_⟩
  · intro c p i h ha hne
    exact c.get_direction_disp_of_craving p i h ha hne
  · intro c p i h ha hne
    exact c.get_direction_disp_of_aversion p i h ha hne
  · intro p
    rfl
  · intro c p last i h ha hp hlast
    have hd : c.get_direction_disp = c.pos - last := by
      rw [c.get_direction_disp_of_target_at_pos p i h hp, hlast]
      rfl
    refine ⟨hd, ?_⟩
    intro hne hz
    rw [hd] at hz
    exact hne ((sub_eq_zero.mp ((normSq_eq_zero_iff _).mp hz)).symm)

/-- Witness for C2: a fresh creature at (0,0); the same creature given a
ModerateCraving target at (10,0); given a MajorAversion target at (0,10);
and a creature moved to (1,0) with a VitalAversion target at its own
position. -/
theorem C2_witness :
    ((Creature.new (0, 0)).add_objective (10, 0)
        ObjectiveIntensity.ModerateCraving).get_direction_disp =
      (10, 0) - ((Creature.new (0, 0)).add_objective (10, 0)
        ObjectiveIntensity.ModerateCraving).pos ∧
    ((Creature.new (0, 0)).add_objective (0, 10)
        ObjectiveIntensity.MajorAversion).get_direction_disp =
      -((0, 10) - ((Creature.new (0, 0)).add_objective (0, 10)
        ObjectiveIntensity.MajorAversion).pos) ∧
    (Creature.new (0, 0)).get_direction_disp = (1, 0) ∧
    (((Creature.new (0, 0)).move_to (1, 0)).add_objective (1, 0)
        ObjectiveIntensity.VitalAversion).get_direction_disp =
      (((Creature.new (0, 0)).move_to (1, 0)).add_objective (1, 0)
        ObjectiveIntensity.VitalAversion).pos - (0, 0) := by
  refine ⟨?_, ?_, ?_, ?_⟩
  · exact C2_get_direction_fallback_chain.1 _ (10, 0)
      ObjectiveIntensity.ModerateCraving rfl rfl (by decide)
  · exact C2_get_direction_fallback_chain.2.1 _ (0, 10)
      ObjectiveIntensity.MajorAversion rfl rfl (by decide)
  · exact C2_get_direction_fallback_chain.2.2.1 (0, 0)
  · exact (C2_get_direction_fallback_chain.2.2.2 _ (1, 0) (0, 0)
      ObjectiveIntensity.VitalAversion
      (by norm_num [Creature.new, Creature.move_to, Creature.apply_energy_cost,
        Creature.get_motion_energy_cost, Creature.get_speed, Creature.add_objective])
      rfl
      (by norm_num [Creature.new, Creature.move_to, Creature.apply_energy_cost,
        Creature.get_motion_energy_cost, Creature.get_speed, Creature.add_objective])
      (by norm_num [Creature.new, Creature.move_to, Creature.apply_energy_cost,
        Creature.get_motion_energy_cost, Creature.get_speed, Creature.add_objective,
        Creature.get_last_position])).1

/-- C3 (code bug): construct at (0,0), call move_to((1,0)) twice, no target.
The displacement `get_direction` hands to `Unit::new_normalize` is the zero
vector (`pos` minus the second-to-last history entry, both (1,0)), whose norm
is zero, so the normalization divides by zero; the positive x-axis default is
NOT returned, because the `Vector2::x()` fallback applies only when
`get_last_position` is `none` (history shorter than two entries), not when
the recorded last movement is zero. -/
theorem C3_zero_displacement_normalized :
    (((Creature.new (0, 0)).move_to (1, 0)).move_to (1, 0)).target = none ∧
    (((Creature.new (0, 0)).move_to (1, 0)).move_to (1, 0)).get_last_position =
      some (1, 0) ∧
    (((Creature.new (0, 0)).move_to (1, 0)).move_to (1, 0)).get_direction_disp =
      (0, 0) ∧
    normSq ((((Creature.new (0, 0)).move_to (1, 0)).move_to
      (1, 0)).get_direction_disp) = 0 ∧
    (((Creature.new (0, 0)).move_to (1, 0)).move_to (1, 0)).get_direction_disp ≠
      (1, 0) := by
  refine ⟨?_, ?_, ?_, ?_, ?_⟩ <;>
    norm_num [Creature.new, Creature.move_to, Creature.apply_energy_cost,
      Creature.get_motion_energy_cost, Creature.get_speed,
      Creature.get_direction_disp, Creature.get_last_position, normSq,
      Prod.ext_iff]

namespace Creature

lemma apply_energy_cost_def (c : Creature) (x : ℚ) :
    c.apply_energy_cost x =
      if c.energy - x ≤ 0 then
        { c with energy := c.energy - x, state := CreatureState.DEAD }
      else
        { c with energy := c.energy - x } := rfl

lemma move_to_def (c : Creature) (p : Point2) :
    c.move_to p =
      if c.energy - 1/2 * c.get_speed ^ 2 ≤ 0 then
        { c with
          pos := p
          movement_history := c.movement_history ++ [p]
          energy := c.energy - 1/2 * c.get_speed ^ 2
          state := CreatureState.DEAD }
      else
        { c with
          pos := p
          movement_history := c.movement_history ++ [p]
          energy := c.energy - 1/2 * c.get_speed ^ 2 } := rfl

lemma move_to_fields (c : Creature) (p : Point2) :
    (c.move_to p).pos = p ∧
    (c.move_to p).movement_history = c.movement_history ++ [p] ∧
    (c.move_to p).energy = c.energy - 1/2 * c.get_speed ^ 2 ∧
    (c.move_to p).foods_eaten = c.foods_eaten ∧
    (c.move_to p).target = c.target ∧
    (c.move_to p).speed = c.speed ∧
    (c.move_to p).home_pos = c.home_pos ∧
    (c.move_to p).sense_range = c.sense_range ∧
    (c.move_to p).reach = c.reach ∧
    (c.move_to p).life_span = c.life_span ∧
    (c.move_to p).age = c.age := by
  rw [move_to_def]
  by_cases h : c.energy - 1/2 * c.get_speed ^ 2 ≤ 0
  · simp only [if_pos h]
    simp
  · simp only [if_neg h]
    simp

lemma move_to_state (c : Creature) (p : Point2) :
    (c.move_to p).state =
      if c.energy - 1/2 * c.get_speed ^ 2 ≤ 0 then CreatureState.DEAD
      else c.state := by
  rw [move_to_def]
  by_cases h : c.energy - 1/2 * c.get_speed ^ 2 ≤ 0
  · simp only [if_pos h]
  · simp only [if_neg h]

lemma apply_energy_cost_fields (c : Creature) (x : ℚ) :
    (c.apply_energy_cost x).energy = c.energy - x ∧
    (c.apply_energy_cost x).pos = c.pos ∧
    (c.apply_energy_cost x).movement_history = c.movement_history ∧
    (c.apply_energy_cost x).home_pos = c.home_pos ∧
    (c.apply_energy_cost x).foods_eaten = c.foods_eaten ∧
    (c.apply_energy_cost x).target = c.target ∧
    (c.apply_energy_cost x).speed = c.speed := by
  rw [apply_energy_cost_def]
  by_cases h : c.energy - x ≤ 0
  · simp only [if_pos h]
    simp
  · simp only [if_neg h]
    simp

lemma apply_energy_cost_state (c : Creature) (x : ℚ) :
    (c.apply_energy_cost x).state =
      if c.energy - x ≤ 0 then CreatureState.DEAD else c.state := by
  rw [apply_energy_cost_def]
  by_cases h : c.energy - x ≤ 0
  · simp only [if_pos h]
  · simp only [if_neg h]

lemma add_objective_fields (c : Creature) (p : Point2) (i : ObjectiveIntensity) :
    (c.add_objective p i).pos = c.pos ∧
    (c.add_objective p i).movement_history = c.movement_history ∧
    (c.add_objective p i).home_pos = c.home_pos ∧
    (c.add_objective p i).energy = c.energy ∧
    (c.add_objective p i).foods_eaten = c.foods_eaten ∧
    (c.add_objective p i).state = c.state ∧
    (c.add_objective p i).speed = c.speed := by
  unfold add_objective
  by_cases h : ((c.target.map fun t =>
      decide (rank t.2 < rank i)).getD true : Bool) = true
  · simp only [if_pos h]
    simp
  · simp only [if_neg h]
    simp

lemma is_alive_eq_false_iff (c : Creature) :
    c.is_alive = false ↔ c.state = CreatureState.DEAD := by
  unfold is_alive
  cases c.state <;> simp

lemma is_alive_eq_true_iff (c : Creature) :
    c.is_alive = true ↔ c.state ≠ CreatureState.DEAD := by
  unfold is_alive
  cases c.state <;> simp

lemma grow_older_eq_none_iff (c : Creature) :
    c.grow_older = none ↔ c.life_span < c.age := by
  unfold grow_older
  split <;> simp_all

lemma grow_older_eq_some (c d : Creature) (hd : c.grow_older = some d) :
    c.age ≤ c.life_span ∧
    d = { Creature.new c.home_pos with
      speed := c.speed
      sense_range := c.sense_range
      reach := c.reach
      life_span := c.life_span
      age := c.age + 1 } := by
  unfold grow_older at hd
  split at hd
  · exact absurd hd (by simp)
  · exact ⟨Nat.le_of_not_lt (by assumption), (Option.some.inj hd).symm⟩

lemma reproduce_eq (c : Creature) (noise : ℚ) :
    (¬ 1 < c.foods_eaten → c.reproduce noise = []) ∧
    (1 < c.foods_eaten → c.reproduce noise =
      [{ Creature.new c.home_pos with speed := get_mutated c.speed noise }]) := by
  unfold reproduce will_reproduce
  constructor
  · intro h
    simp [h]
  · intro h
    simp [h]

end Creature

namespace Creature

lemma move_to_alive_iff (c : Creature) (p : Point2)
    (hP : c.is_alive = false ↔ c.energy ≤ 0) :
    (c.move_to p).is_alive = false ↔ (c.move_to p).energy ≤ 0 := by
  obtain ⟨-, -, henergy, -⟩ := c.move_to_fields p
  rw [(c.move_to p).is_alive_eq_false_iff, c.move_to_state p, henergy]
  by_cases h : c.energy - 1/2 * c.get_speed ^ 2 ≤ 0
  · rw [if_pos h]
    exact ⟨fun _ => h, fun _ => rfl⟩
  · rw [if_neg h]
    constructor
    · intro hdead
      have he : c.energy ≤ 0 := hP.mp ((c.is_alive_eq_false_iff).mpr hdead)
      exact absurd (by nlinarith [sq_nonneg c.get_speed]) h
    · intro hcon
      exact absurd hcon h

lemma moveAll_alive_iff (l : List Point2) :
    ∀ c : Creature, (c.is_alive = false ↔ c.energy ≤ 0) →
      ((c.moveAll l).is_alive = false ↔ (c.moveAll l).energy ≤ 0) := by
  induction l with
  | nil => exact fun c hP => hP
  | cons p l ih => exact fun c hP => ih (c.move_to p) (c.move_to_alive_iff p hP)

end Creature

/-- C4: after move_to(p) the position is p, the last history entry is p, and
energy has dropped by exactly half the squared speed — an amount independent
of the point moved to — so energy strictly decreases whenever speed is
nonzero; and for a live creature the state becomes Dead (is_alive false)
exactly when the new energy is ≤ 0. -/
theorem C4_move_to_energy (c : Creature) (p : Point2) :
    (c.move_to p).pos = p ∧
    (c.move_to p).movement_history.getLast? = some p ∧
    (c.move_to p).energy = c.energy - 1/2 * c.get_speed ^ 2 ∧
    (∀ q : Point2, (c.move_to q).energy = (c.move_to p).energy) ∧
    (c.get_speed ≠ 0 → (c.move_to p).energy < c.energy) ∧
    (c.is_alive = true →
      ((c.move_to p).is_alive = false ↔ (c.move_to p).energy ≤ 0)) ∧
    ((c.is_alive = false ↔ c.energy ≤ 0) → ∀ l : List Point2,
      ((c.moveAll l).is_alive = false ↔ (c.moveAll l).energy ≤ 0)) := by
  obtain ⟨hpos, hhist, henergy, -⟩ := c.move_to_fields p
  refine ⟨hpos, ?_, henergy, ?_, ?_, ?_, fun hP l => Creature.moveAll_alive_iff l c hP⟩
  · rw [hhist]
    exact List.getLast?_append_cons c.movement_history p []
  · intro q
    rw [henergy, (c.move_to_fields q).2.2.1]
  · intro hs
    rw [henergy]
    have hc : 0 < 1/2 * c.get_speed ^ 2 := by positivity
    exact sub_lt_self c.energy hc
  · intro halive
    have hnd : c.state ≠ CreatureState.DEAD := (c.is_alive_eq_true_iff).mp halive
    rw [(c.move_to p).is_alive_eq_false_iff, c.move_to_state p, henergy]
    by_cases h : c.energy - 1/2 * c.get_speed ^ 2 ≤ 0
    · rw [if_pos h]
      exact ⟨fun _ => h, fun _ => rfl⟩
    · rw [if_neg h]
      exact ⟨fun hcon => absurd hcon hnd, fun hcon => absurd hcon h⟩

/-- Witness for C4 at a fresh creature moved to (1, 0): speed 1 is nonzero so
energy strictly drops (100 to 99.5), and the creature stays alive since the
new energy is positive. -/
theorem C4_witness :
    ((Creature.new (0, 0)).move_to (1, 0)).energy < (Creature.new (0, 0)).energy ∧
    (((Creature.new (0, 0)).move_to (1, 0)).is_alive = false ↔
      ((Creature.new (0, 0)).move_to (1, 0)).energy ≤ 0) ∧
    (((Creature.new (0, 0)).moveAll [(1, 0)]).is_alive = false ↔
      ((Creature.new (0, 0)).moveAll [(1, 0)]).energy ≤ 0) :=
  ⟨(C4_move_to_energy (Creature.new (0, 0)) (1, 0)).2.2.2.2.1 (by decide),
   (C4_move_to_energy (Creature.new (0, 0)) (1, 0)).2.2.2.2.2.1 rfl,
   (C4_move_to_energy (Creature.new (0, 0)) (1, 0)).2.2.2.2.2.2
     (by norm_num [Creature.new, Creature.is_alive]) [(1, 0)]⟩

/-- C5: grow_older yields no value exactly when age > life_span; otherwise the
produced creature carries speed, sense_range, reach and life_span over
unchanged, has age one larger, and every other field reset to the
construction defaults at home_pos (energy 100, foods_eaten 0, pos and single
history entry home_pos, no target, Active). -/
theorem C5_grow_older_reset (c : Creature) :
    (c.grow_older = none ↔ c.life_span < c.age) ∧
    (∀ d : Creature, c.grow_older = some d →
      d.speed = c.speed ∧ d.sense_range = c.sense_range ∧ d.reach = c.reach ∧
      d.life_span = c.life_span ∧ d.age = c.age + 1 ∧ d.energy = 100 ∧
      d.foods_eaten = 0 ∧ d.pos = c.home_pos ∧ d.home_pos = c.home_pos ∧
      d.movement_history = [c.home_pos] ∧ d.target = none ∧
      d.state = CreatureState.ACTIVE) := by
  refine ⟨c.grow_older_eq_none_iff, ?_⟩
  intro d hd
  obtain ⟨-, rfl⟩ := c.grow_older_eq_some d hd
  simp [Creature.new]

/-- Witness for C5: a fresh creature at (0,0) ages to the age-1 creature. -/
theorem C5_witness :
    ({ Creature.new (0, 0) with age := 1 } : Creature).speed =
      (Creature.new (0, 0)).speed ∧
    ({ Creature.new (0, 0) with age := 1 } : Creature).age =
      (Creature.new (0, 0)).age + 1 ∧
    ({ Creature.new (0, 0) with age := 1 } : Creature).energy = 100 :=
  have h := (C5_grow_older_reset (Creature.new (0, 0))).2
    { Creature.new (0, 0) with age := 1 } rfl
  ⟨h.1, h.2.2.2.2.1, h.2.2.2.2.2.1⟩

/-- C6: reproduce returns the empty list exactly when foods_eaten ≤ 1, and
otherwise exactly one child that equals a freshly constructed creature at the
parent's home_pos except that its speed trait is the mutated derivation of
the parent's speed. -/
theorem C6_reproduce_child (c : Creature) (noise : ℚ) :
    (c.reproduce noise = [] ↔ c.foods_eaten ≤ 1) ∧
    (1 < c.foods_eaten → c.reproduce noise =
      [{ Creature.new c.home_pos with speed := get_mutated c.speed noise }]) ∧
    (∀ d : Creature, d ∈ c.reproduce noise →
      d.speed = get_mutated c.speed noise ∧ d.age = 0 ∧ d.foods_eaten = 0 ∧
      d.energy = 100 ∧ d.pos = c.home_pos ∧ d.home_pos = c.home_pos ∧
      d.movement_history = [c.home_pos] ∧ d.target = none ∧
      d.state = CreatureState.ACTIVE) := by
  obtain ⟨hno, hyes⟩ := c.reproduce_eq noise
  refine ⟨?_, hyes, ?_⟩
  · constructor
    · intro h
      by_contra hle
      rw [hyes (Nat.lt_of_not_le (fun hc => hle (by omega)))] at h
      exact List.cons_ne_nil _ _ h
    · intro h
      exact hno (by omega)
  · intro d hd
    by_cases h : 1 < c.foods_eaten
    · rw [hyes h] at hd
      rw [List.mem_singleton.mp hd]
      simp [Creature.new]
    · rw [hno h] at hd
      exact absurd hd (List.not_mem_nil d)

/-- Witness for C6: a parent that has eaten twice produces exactly the fresh
child at its home position with the mutated speed. -/
theorem C6_witness :
    (((Creature.new (0, 0)).eat_food).eat_food).reproduce 0 =
      [{ Creature.new (((Creature.new (0, 0)).eat_food).eat_food).home_pos with
        speed := get_mutated (((Creature.new (0, 0)).eat_food).eat_food).speed 0 }] :=
  (C6_reproduce_child ((Creature.new (0, 0)).eat_food).eat_food 0).2.1 (by decide)

/-- C7 counterexample: deplete a fresh creature's energy so it is Dead, then
call sleep(); the state moves away from Dead to Asleep and is_alive becomes
true again — sleep() is unconditional in the source. -/
theorem C7_counterexample :
    ((Creature.new (0, 0)).apply_energy_cost 100).state = CreatureState.DEAD ∧
    (((Creature.new (0, 0)).apply_energy_cost 100).sleep).state =
      CreatureState.ASLEEP ∧
    (((Creature.new (0, 0)).apply_energy_cost 100).sleep).is_alive = true := by
  refine ⟨?_, ?_, ?_⟩ <;>
    norm_num [Creature.new, Creature.apply_energy_cost, Creature.sleep,
      Creature.is_alive]

/-- C7 (amended): Dead is terminal under move_to, apply_energy_cost,
add_objective, eat_food and reset_objective — none of them moves the state
away from Dead, so is_alive stays false — but sleep() unconditionally sets
the state to Asleep, even on a Dead creature, making is_alive true again. -/
theorem C7_dead_terminal_except_sleep (c : Creature)
    (h : c.state = CreatureState.DEAD) :
    (∀ p : Point2, (c.move_to p).state = CreatureState.DEAD) ∧
    (∀ x : ℚ, (c.apply_energy_cost x).state = CreatureState.DEAD) ∧
    (∀ (p : Point2) (i : ObjectiveIntensity),
      (c.add_objective p i).state = CreatureState.DEAD) ∧
    c.eat_food.state = CreatureState.DEAD ∧
    c.reset_objective.state = CreatureState.DEAD ∧
    c.is_alive = false ∧
    c.sleep.state = CreatureState.ASLEEP ∧
    c.sleep.is_alive = true := by
  refine ⟨?_, ?_, ?_, ?_, ?_, ?_, ?_, ?_⟩
  · intro p
    rw [c.move_to_state p]
    by_cases hc : c.energy - 1/2 * c.get_speed ^ 2 ≤ 0
    · exact if_pos hc
    · rw [if_neg hc]
      exact h
  · intro x
    rw [c.apply_energy_cost_state x]
    by_cases hc : c.energy - x ≤ 0
    · exact if_pos hc
    · rw [if_neg hc]
      exact h
  · intro p i
    rw [(c.add_objective_fields p i).2.2.2.2.2.1]
    exact h
  · exact h
  · exact h
  · exact (c.is_alive_eq_false_iff).mpr h
  · rfl
  · rfl

/-- Witness for C7 at a concrete Dead creature (fresh creature after an
energy cost of 100). -/
theorem C7_witness :
    ((((Creature.new (0, 0)).apply_energy_cost 100).move_to (1, 0)).state =
      CreatureState.DEAD) ∧
    ((((Creature.new (0, 0)).apply_energy_cost 100).eat_food).state =
      CreatureState.DEAD) ∧
    ((((Creature.new (0, 0)).apply_energy_cost 100).sleep).state =
      CreatureState.ASLEEP) :=
  have h := C7_dead_terminal_except_sleep
    ((Creature.new (0, 0)).apply_energy_cost 100)
    (by norm_num [Creature.new, Creature.apply_energy_cost])
  ⟨h.1 (1, 0), h.2.2.2.1, h.2.2.2.2.2.2.1⟩

/-- C8 counterexample: a creature at the default life_span 4 whose age is
exactly 4 still ages: grow_older produces a creature of age 5, whose age
exceeds its life_span 4 — so not every value produced by grow_older has
age ≤ life_span. -/
theorem C8_counterexample :
    ({ Creature.new (0, 0) with age := 4 } : Creature).grow_older =
      some { Creature.new (0, 0) with age := 5 } ∧
    ¬ ({ Creature.new (0, 0) with age := 5 } : Creature).age ≤
      ({ Creature.new (0, 0) with age := 5 } : Creature).life_span :=
  ⟨rfl, by decide⟩

/-- C8 (amended): age only increases — a creature produced by grow_older has
age exactly one more than its parent — and grow_older yields a value only
when the parent's age is at most life_span, so a produced creature's age is
at most life_span + 1; a creature whose age exceeds its life_span produces no
further generation (its own grow_older is none). -/
theorem C8_age_bound (c d : Creature) (hd : c.grow_older = some d) :
    d.age = c.age + 1 ∧ c.age < d.age ∧ c.age ≤ c.life_span ∧
    d.life_span = c.life_span ∧ d.age ≤ d.life_span + 1 ∧
    (d.life_span < d.age → d.grow_older = none) := by
  obtain ⟨hle, rfl⟩ := c.grow_older_eq_some d hd
  refine ⟨rfl, Nat.lt_succ_self _, hle, rfl, Nat.succ_le_succ hle, ?_⟩
  intro h2
  exact (Creature.grow_older_eq_none_iff _).mpr h2

/-- Witness for C8: the age-4 default creature produces the age-5 creature,
whose own grow_older is none. -/
theorem C8_witness :
    ({ Creature.new (0, 0) with age := 5 } : Creature).age =
      ({ Creature.new (0, 0) with age := 4 } : Creature).age + 1 ∧
    ({ Creature.new (0, 0) with age := 5 } : Creature).grow_older = none :=
  have h := C8_age_bound { Creature.new (0, 0) with age := 4 }
    { Creature.new (0, 0) with age := 5 } rfl
  ⟨h.1, h.2.2.2.2.2 (by decide)⟩

/-- C9: for every creature reachable from construction by the core's
operations, movement_history is non-empty, its last element is pos, and its
first element is the birth position (home_pos); and the history is
append-only: move_to appends exactly the new position and no other operation
touches the history. -/
theorem C9_history_invariant :
    (∀ c : Creature, Reaches c →
      c.movement_history ≠ [] ∧
      c.movement_history.getLast? = some c.pos ∧
      c.movement_history.head? = some c.home_pos) ∧
    (∀ (c : Creature) (p : Point2),
      (c.move_to p).movement_history = c.movement_history ++ [p]) ∧
    (∀ c : Creature, c.eat_food.movement_history = c.movement_history) ∧
    (∀ (c : Creature) (p : Point2) (i : ObjectiveIntensity),
      (c.add_objective p i).movement_history = c.movement_history) ∧
    (∀ c : Creature, c.reset_objective.movement_history = c.movement_history) ∧
    (∀ c : Creature, c.sleep.movement_history = c.movement_history) ∧
    (∀ (c : Creature) (x : ℚ),
      (c.apply_energy_cost x).movement_history = c.movement_history) := by
  refine ⟨?_, fun c p => (c.move_to_fields p).2.1, fun c => rfl,
    fun c p i => (c.add_objective_fields p i).2.1, fun c => rfl, fun c => rfl,
    fun c x => (c.apply_energy_cost_fields x).2.2.1⟩
  intro c h
  induction h with
  | new p =>
    exact ⟨by simp [Creature.new], by simp [Creature.new],
      by simp [Creature.new]⟩
  | move_to c p hc ih =>
    obtain ⟨hne, hlast, hhead⟩ := ih
    obtain ⟨hpos, hhist, -, -, -, -, hhome, -⟩ := c.move_to_fields p
    refine ⟨?_, ?_, ?_⟩
    · rw [hhist]
      simp
    · rw [hhist, hpos]
      exact List.getLast?_append_cons c.movement_history p []
    · rw [hhist, hhome, List.head?_append_of_ne_nil c.movement_history hne]
      exact hhead
  | eat_food c hc ih => exact ih
  | add_objective c p i hc ih =>
    obtain ⟨hpos, hhist, hhome, -⟩ := c.add_objective_fields p i
    exact ⟨by rw [hhist]; exact ih.1, by rw [hhist, hpos]; exact ih.2.1,
      by rw [hhist, hhome]; exact ih.2.2⟩
  | reset_objective c hc ih => exact ih
  | sleep c hc ih => exact ih
  | apply_energy_cost c x hc ih =>
    obtain ⟨-, hpos, hhist, hhome, -⟩ := c.apply_energy_cost_fields x
    exact ⟨by rw [hhist]; exact ih.1, by rw [hhist, hpos]; exact ih.2.1,
      by rw [hhist, hhome]; exact ih.2.2⟩
  | grow_older c d hc hd ih =>
    obtain ⟨-, rfl⟩ := c.grow_older_eq_some d hd
    exact ⟨by simp [Creature.new], by simp [Creature.new],
      by simp [Creature.new]⟩
  | reproduce c d noise hc hd ih =>
    by_cases hr : 1 < c.foods_eaten
    · rw [(c.reproduce_eq noise).2 hr] at hd
      rw [List.mem_singleton.mp hd]
      exact ⟨by simp [Creature.new], by simp [Creature.new],
        by simp [Creature.new]⟩
    · rw [(c.reproduce_eq noise).1 hr] at hd
      exact absurd hd (List.not_mem_nil d)

/-- Witness for C9 at the freshly constructed creature at (0,0). -/
theorem C9_witness :
    (Creature.new (0, 0)).movement_history ≠ [] ∧
    (Creature.new (0, 0)).movement_history.getLast? =
      some (Creature.new (0, 0)).pos ∧
    (Creature.new (0, 0)).movement_history.head? =
      some (Creature.new (0, 0)).home_pos :=
  C9_history_invariant.1 (Creature.new (0, 0)) (Reaches.new (0, 0))

/-- C10: the effect of move_to, eat_food and add_objective on every field
other than state is independent of the current state: starting from two
creatures identical except for state, the same call yields identical pos,
movement_history, energy, foods_eaten and target (the `obs` projection). In
particular a Dead creature still moves, pays the energy cost, eats and
acquires targets exactly as a live one. -/
theorem C10_state_oblivious (c : Creature) (s : CreatureState) (p : Point2)
    (i : ObjectiveIntensity) :
    ((c.setState s).move_to p).obs = (c.move_to p).obs ∧
    ((c.setState s).eat_food).obs = c.eat_food.obs ∧
    ((c.setState s).add_objective p i).obs = (c.add_objective p i).obs := by
  refine ⟨?_, rfl, ?_⟩
  · obtain ⟨hp1, hh1, he1, hf1, ht1, -⟩ := ((c.setState s)).move_to_fields p
    obtain ⟨hp2, hh2, he2, hf2, ht2, -⟩ := c.move_to_fields p
    unfold Creature.obs
    rw [hp1, hp2, hh1, hh2, he1, he2, hf1, hf2, ht1, ht2]
    rfl
  · obtain ⟨hp1, hh1, -, he1, hf1, -⟩ := ((c.setState s)).add_objective_fields p i
    obtain ⟨hp2, hh2, -, he2, hf2, -⟩ := c.add_objective_fields p i
    unfold Creature.obs
    rw [hp1, hp2, hh1, hh2, he1, he2, hf1, hf2,
      ((c.setState s)).target_add_objective p i, c.target_add_objective p i]
    rfl
